import Mathlib

/-!
Formal model of the browser-agent repository's element-labeling and
action-parsing logic (packages/tools/browser.ts and packages/ai/main.ts),
with theorems checking the specification's claims against it.

JavaScript strings are modelled as Lean `String`/`List Char`; the float
coordinates of `getBoundingClientRect` are modelled as exact rationals `ℚ`;
machine integers produced by `Math.round` are modelled as `Int`.
-/

set_option maxRecDepth 10000

namespace BrowserAgent

/-- Model of `Math.round`: rounds half toward positive infinity. -/
def jsRound (q : ℚ) : Int := ⌊q + 1/2⌋

/-- The computed style values the visibility filter inspects. -/
structure RawStyle where
  display : String
  visibility : String
  opacity : String
  deriving Repr, DecidableEq

/-- A raw bounding rect as returned by `getBoundingClientRect` (floats,
modelled as rationals). `bottom` and `right` are derived as in the DOM. -/
structure RawRect where
  left : ℚ
  top : ℚ
  width : ℚ
  height : ℚ
  deriving Repr, DecidableEq

def RawRect.bottom (r : RawRect) : ℚ := r.top + r.height
def RawRect.right (r : RawRect) : ℚ := r.left + r.width

/-- One candidate DOM element matched by the clickable selectors, with the
fields `detectClickableElements` reads. `tagName` is already lowercased;
the nullable attributes are `Option`s (`none` models `null`). -/
structure RawEl where
  rect : RawRect
  style : RawStyle
  tagName : String
  inputType : String
  innerText : String
  value : Option String
  ariaLabel : Option String
  title : Option String
  placeholder : Option String
  deriving Repr, DecidableEq

/-- The pre-label record pushed into `results` inside the page evaluate. -/
structure DetectedData where
  type : String
  text : String
  x : Int
  y : Int
  width : Int
  height : Int
  deriving Repr, DecidableEq

/-- A detected element together with its 1-indexed label. -/
structure LabeledElement where
  label : Nat
  type : String
  text : String
  x : Int
  y : Int
  width : Int
  height : Int
  deriving Repr, DecidableEq

/-- The visibility/size filter: an element is skipped when
`rect.width < 10 || rect.height < 10 || rect.top < 0 || rect.left < 0 ||
rect.bottom > innerHeight || rect.right > innerWidth`. This is the
size/viewport part of the filter. -/
def sizeReject (e : RawEl) : Bool :=
  e.rect.width < 10 || e.rect.height < 10

def sizeViewportReject (vw vh : ℚ) (e : RawEl) : Bool :=
  sizeReject e || e.rect.top < 0 || e.rect.left < 0 ||
    e.rect.bottom > vh || e.rect.right > vw

/-- The style part of the filter: skipped when
`display === "none" || visibility === "hidden" || opacity === "0"`. -/
def styleReject (e : RawEl) : Bool :=
  e.style.display = "none" || e.style.visibility = "hidden" || e.style.opacity = "0"

/-- An element survives the filter when neither rejection fires. -/
def passesFilter (vw vh : ℚ) (e : RawEl) : Bool :=
  !sizeViewportReject vw vh e && !styleReject e

/-- Element classification: `input` tags become `input[<type>]`, anchors
become `link`, everything else keeps its tag name. -/
def elementTypeOf (e : RawEl) : String :=
  if e.tagName = "input" then "input[" ++ e.inputType ++ "]"
  else if e.tagName = "a" then "link"
  else e.tagName

/-- JavaScript `a || b` on a nullable string: `null` and `""` are falsy. -/
def jsOrStr (a : Option String) (b : String) : String :=
  match a with
  | some s => if s = "" then b else s
  | none => b

/-- JavaScript `\s` (whitespace) character class, used by `trim`. -/
def wsChar (c : Char) : Bool :=
  c = ' ' || c = '\t' || c = '\n' || c = '\r' || c = '\x0b' || c = '\x0c' ||
    c = '\u00a0' || c = '\u1680' || (0x2000 ≤ c.val && c.val ≤ 0x200a) ||
    c = '\u2028' || c = '\u2029' || c = '\u202f' || c = '\u205f' ||
    c = '\u3000' || c = '\ufeff'

/-- Model of `String.prototype.trim`. -/
def jsTrim (l : List Char) : List Char :=
  ((l.dropWhile wsChar).reverse.dropWhile wsChar).reverse

/-- Raw text source selection:
`innerText || value || aria-label || title || placeholder || ""`. -/
def rawTextOf (e : RawEl) : String :=
  if e.innerText = "" then
    jsOrStr e.value (jsOrStr e.ariaLabel (jsOrStr e.title (jsOrStr e.placeholder "")))
  else e.innerText

/-- Source line `text = text.trim().substring(0, 50); if (text.length === 50) text += "..."`. -/
def extractText (e : RawEl) : String :=
  let t := jsTrim (rawTextOf e).data
  let t50 := t.take 50
  if t50.length = 50 then String.mk (t50 ++ "...".data) else String.mk t50

/-- The record pushed for a surviving element (coordinates rounded). -/
def convertEl (e : RawEl) : DetectedData :=
  { type := elementTypeOf e
    text := extractText e
    x := jsRound e.rect.left
    y := jsRound e.rect.top
    width := jsRound e.rect.width
    height := jsRound e.rect.height }

/-- The sort comparator:
`if (Math.abs(a.y - b.y) < 20) return a.x - b.x; return a.y - b.y`. -/
def cmpVal (a b : DetectedData) : Int :=
  if (a.y - b.y).natAbs < 20 then a.x - b.x else a.y - b.y

/-- Stable insertion of `x` into an already-processed accumulator: `x` goes
before the first element strictly greater than it (comparator `< 0`),
after equal elements, which matches the stability of `Array.prototype.sort`. -/
def jsInsert (cmp : DetectedData → DetectedData → Int) (x : DetectedData) :
    List DetectedData → List DetectedData
  | [] => [x]
  | y :: ys => if cmp x y < 0 then x :: y :: ys else y :: jsInsert cmp x ys

def jsSortGo (cmp : DetectedData → DetectedData → Int) (acc : List DetectedData) :
    List DetectedData → List DetectedData
  | [] => acc
  | x :: xs => jsSortGo cmp (jsInsert cmp x acc) xs

/-- Model of `results.sort(cmp)` as a stable insertion sort. For a consistent
comparator this is the unique stable sorted order that `Array.prototype.sort`
must produce; for an inconsistent comparator the JS output order is
implementation-defined and this fixes one concrete choice. -/
def jsSortBy (cmp : DetectedData → DetectedData → Int)
    (l : List DetectedData) : List DetectedData :=
  jsSortGo cmp [] l

/-- The filter-and-convert stage of `detectClickableElements`, before sorting. -/
def convertStage (vw vh : ℚ) (cands : List RawEl) : List DetectedData :=
  (cands.filter (passesFilter vw vh)).map convertEl

/-- The sorted results, before the 30-element cap. -/
def sortStage (vw vh : ℚ) (cands : List RawEl) : List DetectedData :=
  jsSortBy cmpVal (convertStage vw vh cands)

/-- Spread `\x7b ...el, label \x7d`: attach a label to a detected record. -/
def withLabel (k : Nat) (d : DetectedData) : LabeledElement :=
  { label := k, type := d.type, text := d.text, x := d.x, y := d.y,
    width := d.width, height := d.height }

/-- Source line `elements.map((el, index) => ({ ...el, label: index + 1 }))`, labels
starting at `n`. -/
def labelFrom (n : Nat) : List DetectedData → List LabeledElement
  | [] => []
  | d :: ds => withLabel n d :: labelFrom (n + 1) ds

/-- Model of `detectClickableElements`: filter, convert, sort, cap at 30, label 1..N.
`vw`/`vh` are `window.innerWidth`/`window.innerHeight`; `cands` is the list
of elements matched by the clickable selectors in DOM order. -/
def detectClickableElements (vw vh : ℚ) (cands : List RawEl) : List LabeledElement :=
  labelFrom 1 ((sortStage vw vh cands).take 30)

/-! Basic lemmas about the detection pipeline. -/

theorem labelFrom_map_label (n : Nat) (l : List DetectedData) :
    (labelFrom n l).map (·.label) = List.range' n l.length := by
  induction l generalizing n with
  | nil => simp [labelFrom]
  | cons d ds ih => simp [labelFrom, withLabel, List.range'_succ, ih]

theorem labelFrom_length (n : Nat) (l : List DetectedData) :
    (labelFrom n l).length = l.length := by
  induction l generalizing n with
  | nil => rfl
  | cons d ds ih => simp [labelFrom, ih]

theorem mem_labelFrom {n : Nat} {l : List DetectedData} {le : LabeledElement}
    (h : le ∈ labelFrom n l) : ∃ d ∈ l, le = withLabel le.label d := by
  induction l generalizing n with
  | nil => simp [labelFrom] at h
  | cons d ds ih =>
      simp only [labelFrom, List.mem_cons] at h
      rcases h with h | h
      · exact ⟨d, List.mem_cons_self .., by simp [h, withLabel]⟩
      · obtain ⟨d0, hd0, he⟩ := ih h
        exact ⟨d0, List.mem_cons_of_mem _ hd0, he⟩

theorem jsInsert_perm (cmp : DetectedData → DetectedData → Int)
    (x : DetectedData) (l : List DetectedData) :
    (jsInsert cmp x l).Perm (x :: l) := by
  induction l with
  | nil => simp [jsInsert]
  | cons y ys ih =>
      by_cases h : cmp x y < 0
      · simp [jsInsert, h]
      · simp only [jsInsert, if_neg h]
        exact (ih.cons y).trans (List.Perm.swap x y ys)

theorem jsSortGo_perm (cmp : DetectedData → DetectedData → Int)
    (acc l : List DetectedData) : (jsSortGo cmp acc l).Perm (acc ++ l) := by
  induction l generalizing acc with
  | nil => simp [jsSortGo]
  | cons x xs ih =>
      refine (ih (jsInsert cmp x acc)).trans ?_
      refine (List.Perm.append_right xs (jsInsert_perm cmp x acc)).trans ?_
      exact List.perm_middle.symm

theorem jsSortBy_perm (cmp : DetectedData → DetectedData → Int)
    (l : List DetectedData) : (jsSortBy cmp l).Perm l := by
  simpa [jsSortBy] using jsSortGo_perm cmp [] l

/-- C1: in every detection pass the labels are exactly the contiguous
sequence `1..N` in output order, `N ≤ 30`, and `N` is the sorted-candidate
count capped at 30 (elements beyond the first 30 post-sort are dropped). -/
theorem detect_labels_contiguous (vw vh : ℚ) (cands : List RawEl) :
    (detectClickableElements vw vh cands).map (·.label) =
        List.range' 1 (detectClickableElements vw vh cands).length ∧
      (detectClickableElements vw vh cands).length ≤ 30 ∧
      (detectClickableElements vw vh cands).length =
        min 30 (sortStage vw vh cands).length := by
  refine ⟨?_, ?_, ?_⟩
  · rw [detectClickableElements, labelFrom_map_label, labelFrom_length]
  · rw [detectClickableElements, labelFrom_length, List.length_take]
    exact Nat.min_le_left ..
  · rw [detectClickableElements, labelFrom_length, List.length_take]

/-- C3: every element of a detection pass arises from a candidate that
passed the visibility filter; passing the filter rules out small, offscreen
and style-hidden elements; and a 10×10 element is not rejected by the size
filter (boundary at exactly 10). -/
theorem detect_filter_excludes (vw vh : ℚ) (cands : List RawEl) :
    (∀ le ∈ detectClickableElements vw vh cands,
        ∃ e ∈ cands, passesFilter vw vh e = true ∧
          le = withLabel le.label (convertEl e)) ∧
      (∀ e : RawEl, passesFilter vw vh e = true →
        ¬(e.rect.width < 10 ∨ e.rect.height < 10) ∧
          0 ≤ e.rect.top ∧ 0 ≤ e.rect.left ∧
          e.rect.bottom ≤ vh ∧ e.rect.right ≤ vw ∧
          e.style.display ≠ "none" ∧ e.style.visibility ≠ "hidden" ∧
          e.style.opacity ≠ "0") ∧
      (∀ e : RawEl, e.rect.width = 10 → e.rect.height = 10 →
        sizeReject e = false) := by
  refine ⟨?_, ?_, ?_⟩
  · intro le hle
    obtain ⟨d, hd, he⟩ := mem_labelFrom hle
    have hd2 : d ∈ sortStage vw vh cands := List.mem_of_mem_take hd
    have hd3 : d ∈ convertStage vw vh cands :=
      (jsSortBy_perm cmpVal (convertStage vw vh cands)).mem_iff.mp hd2
    simp only [convertStage, List.mem_map, List.mem_filter] at hd3
    obtain ⟨e, ⟨hec, hep⟩, hconv⟩ := hd3
    exact ⟨e, hec, hep, by rw [hconv]; exact he⟩
  · intro e hp
    simp only [passesFilter, Bool.and_eq_true, Bool.not_eq_true'] at hp
    obtain ⟨h1, h2⟩ := hp
    simp only [sizeViewportReject, sizeReject, Bool.or_eq_false_iff,
      decide_eq_false_iff_not, not_lt] at h1
    simp only [styleReject, Bool.or_eq_false_iff,
      decide_eq_false_iff_not] at h2
    simp only [not_or, not_lt]
    tauto
  · intro e hw hh
    simp [sizeReject, hw, hh]

/-- A plainly visible 30×20 button at (100, 50). -/
def sampleButton : RawEl :=
  { rect := ⟨100, 50, 30, 20⟩, style := ⟨"block", "visible", "1"⟩,
    tagName := "button", inputType := "", innerText := "OK",
    value := none, ariaLabel := none, title := none, placeholder := none }

/-- The labeled element `sampleButton` yields in a detection pass. -/
def sampleButtonOut : LabeledElement :=
  ⟨1, "button", "OK", 100, 50, 30, 20⟩

/-- A visible element whose box is exactly 10×10 (the size-filter boundary). -/
def sampleTenByTen : RawEl :=
  { rect := ⟨5, 5, 10, 10⟩, style := ⟨"block", "visible", "1"⟩,
    tagName := "a", inputType := "", innerText := "x",
    value := none, ariaLabel := none, title := none, placeholder := none }

theorem passes_sampleButton : passesFilter 896 896 sampleButton = true := by
  norm_num [passesFilter, sizeViewportReject, sizeReject, styleReject,
    RawRect.bottom, RawRect.right, sampleButton]
  decide

theorem detect_sampleButton :
    detectClickableElements 896 896 [sampleButton] = [sampleButtonOut] := by
  have h1 : convertStage 896 896 [sampleButton] =
      [⟨"button", "OK", 100, 50, 30, 20⟩] := by
    simp only [convertStage, List.filter_cons, passes_sampleButton, if_pos,
      List.filter_nil, List.map_cons, List.map_nil, convertEl]
    norm_num [elementTypeOf, extractText, rawTextOf, jsTrim, jsRound, sampleButton]
    decide
  rw [detectClickableElements, sortStage, h1]
  rfl

theorem detect_filter_excludes_witness :
    (sampleButtonOut ∈ detectClickableElements 896 896 [sampleButton] ∧
        ∃ e ∈ [sampleButton], passesFilter 896 896 e = true ∧
          sampleButtonOut = withLabel sampleButtonOut.label (convertEl e)) ∧
      (passesFilter 896 896 sampleButton = true ∧ 0 ≤ sampleButton.rect.top) ∧
      (sampleTenByTen.rect.width = 10 ∧ sizeReject sampleTenByTen = false) :=
  ⟨⟨by rw [detect_sampleButton]; exact List.mem_singleton.mpr rfl,
      (detect_filter_excludes 896 896 [sampleButton]).1 sampleButtonOut
        (by rw [detect_sampleButton]; exact List.mem_singleton.mpr rfl)⟩,
    ⟨passes_sampleButton,
      ((detect_filter_excludes 896 896 [sampleButton]).2.1 sampleButton
        passes_sampleButton).2.1⟩,
    ⟨rfl,
      (detect_filter_excludes 896 896 [sampleTenByTen]).2.2 sampleTenByTen
        rfl rfl⟩⟩

/-! Claim C2: ordering of the detection output. -/

/-- The spec's pairwise ordering relation: rows within 20px sort by `x`,
otherwise by `y`. -/
def specOrd (a b : LabeledElement) : Prop :=
  if (a.y - b.y).natAbs < 20 then a.x ≤ b.x else a.y ≤ b.y

instance (a b : LabeledElement) : Decidable (specOrd a b) := by
  unfold specOrd; infer_instance

theorem cmpVal_flip (a b : DetectedData) : cmpVal a b = -cmpVal b a := by
  unfold cmpVal
  rw [show (a.y - b.y).natAbs = (b.y - a.y).natAbs by omega]
  split <;> omega

theorem cmpVal_le_iff (a b : DetectedData) :
    cmpVal a b ≤ 0 ↔ (if (a.y - b.y).natAbs < 20 then a.x ≤ b.x else a.y ≤ b.y) := by
  unfold cmpVal
  split <;> omega

theorem pairwise_jsInsert {l : List DetectedData} {x : DetectedData}
    (htr : ∀ a b c, a ∈ x :: l → b ∈ x :: l → c ∈ x :: l →
      cmpVal a b ≤ 0 → cmpVal b c ≤ 0 → cmpVal a c ≤ 0)
    (hs : l.Pairwise (cmpVal · · ≤ 0)) :
    (jsInsert cmpVal x l).Pairwise (cmpVal · · ≤ 0) := by
  induction l with
  | nil => simp [jsInsert]
  | cons y ys ih =>
      rw [List.pairwise_cons] at hs
      obtain ⟨hy, hys⟩ := hs
      by_cases h : cmpVal x y < 0
      · rw [jsInsert, if_pos h, List.pairwise_cons]
        refine ⟨?_, List.pairwise_cons.mpr ⟨hy, hys⟩⟩
        intro b hb
        rcases List.mem_cons.mp hb with hb | hb
        · exact hb ▸ le_of_lt h
        · exact htr x y b (by simp) (by simp) (by simp [hb]) (le_of_lt h) (hy b hb)
      · rw [jsInsert, if_neg h, List.pairwise_cons]
        refine ⟨?_, ?_⟩
        · intro b hb
          rcases List.mem_cons.mp ((jsInsert_perm cmpVal x ys).mem_iff.mp hb) with hb | hb
          · rw [hb, cmpVal_flip]; omega
          · exact hy b hb
        · refine ih ?_ hys
          intro a b c ha hb hc
          have sub : ∀ z, z ∈ x :: ys → z ∈ x :: y :: ys := by
            intro z hz
            rcases List.mem_cons.mp hz with hz | hz <;> simp [hz]
          exact htr a b c (sub a ha) (sub b hb) (sub c hc)

theorem pairwise_jsSortGo (L : List DetectedData)
    (htr : ∀ a b c, a ∈ L → b ∈ L → c ∈ L →
      cmpVal a b ≤ 0 → cmpVal b c ≤ 0 → cmpVal a c ≤ 0)
    (acc rem : List DetectedData)
    (haccL : ∀ a ∈ acc, a ∈ L) (hremL : ∀ a ∈ rem, a ∈ L)
    (hacc : acc.Pairwise (cmpVal · · ≤ 0)) :
    (jsSortGo cmpVal acc rem).Pairwise (cmpVal · · ≤ 0) := by
  induction rem generalizing acc with
  | nil => exact hacc
  | cons x xs ih =>
      have hxL : x ∈ L := hremL x (by simp)
      have hinsL : ∀ a ∈ jsInsert cmpVal x acc, a ∈ L := by
        intro a ha
        rcases List.mem_cons.mp ((jsInsert_perm cmpVal x acc).mem_iff.mp ha) with ha | ha
        · exact ha ▸ hxL
        · exact haccL a ha
      refine ih (jsInsert cmpVal x acc) hinsL ?_ ?_
      · exact fun a ha => hremL a (List.mem_cons_of_mem _ ha)
      · refine pairwise_jsInsert ?_ hacc
        intro a b c ha hb hc
        have sub : ∀ z, z ∈ x :: acc → z ∈ L := by
          intro z hz
          rcases List.mem_cons.mp hz with hz | hz
          · exact hz ▸ hxL
          · exact haccL z hz
        exact htr a b c (sub a ha) (sub b hb) (sub c hc)

theorem pairwise_labelFrom {R : DetectedData → DetectedData → Prop}
    {R' : LabeledElement → LabeledElement → Prop}
    (h : ∀ n m a b, R a b → R' (withLabel n a) (withLabel m b)) :
    ∀ (n : Nat) (l : List DetectedData), l.Pairwise R → (labelFrom n l).Pairwise R' := by
  intro n l
  induction l generalizing n with
  | nil => intro _; simp [labelFrom]
  | cons d ds ih =>
      intro hp
      rw [List.pairwise_cons] at hp
      rw [labelFrom, List.pairwise_cons]
      refine ⟨?_, ih (n + 1) hp.2⟩
      intro b hb
      obtain ⟨d0, hd0, hbe⟩ := mem_labelFrom hb
      exact hbe ▸ h n b.label d d0 (hp.1 d0 hd0)

/-- C2 (amended): when the comparator is transitive over the converted
candidates (no cyclic triple), the detection output is pairwise ordered:
rows within 20px by `x`, otherwise by `y`; the boundary cases 19 and 20
fall on the `x`-rule and `y`-rule respectively. -/
theorem detect_sorted_of_consistent (vw vh : ℚ) (cands : List RawEl)
    (htr : ∀ a b c, a ∈ convertStage vw vh cands → b ∈ convertStage vw vh cands →
      c ∈ convertStage vw vh cands →
      cmpVal a b ≤ 0 → cmpVal b c ≤ 0 → cmpVal a c ≤ 0) :
    List.Pairwise specOrd (detectClickableElements vw vh cands) ∧
      (∀ a b : LabeledElement, (a.y - b.y).natAbs = 19 → (specOrd a b ↔ a.x ≤ b.x)) ∧
      (∀ a b : LabeledElement, (a.y - b.y).natAbs = 20 → (specOrd a b ↔ a.y ≤ b.y)) := by
  refine ⟨?_, ?_, ?_⟩
  · have hsorted : (sortStage vw vh cands).Pairwise (cmpVal · · ≤ 0) := by
      refine pairwise_jsSortGo (convertStage vw vh cands) htr [] _ ?_ ?_ ?_
      · intro a ha; simp at ha
      · exact fun a ha => ha
      · exact List.Pairwise.nil
    have htake : ((sortStage vw vh cands).take 30).Pairwise (cmpVal · · ≤ 0) :=
      hsorted.sublist (List.take_sublist 30 _)
    refine pairwise_labelFrom ?_ 1 _ htake
    intro n m a b hab
    rw [cmpVal_le_iff] at hab
    exact hab
  · intro a b h19; rw [specOrd, if_pos (by omega)]
  · intro a b h20; rw [specOrd, if_neg (by omega)]

/-- The three cyclic candidates: pairwise the comparator says
A before B (same row, x), B before C (different rows, y), C before A
(same row, x) — a cycle, so no output order is pairwise sorted. -/
def cyclicA : RawEl :=
  { rect := ⟨10, 19, 20, 20⟩, style := ⟨"block", "visible", "1"⟩,
    tagName := "button", inputType := "", innerText := "A",
    value := none, ariaLabel := none, title := none, placeholder := none }

def cyclicB : RawEl :=
  { rect := ⟨20, 0, 20, 20⟩, style := ⟨"block", "visible", "1"⟩,
    tagName := "button", inputType := "", innerText := "B",
    value := none, ariaLabel := none, title := none, placeholder := none }

def cyclicC : RawEl :=
  { rect := ⟨0, 20, 20, 20⟩, style := ⟨"block", "visible", "1"⟩,
    tagName := "button", inputType := "", innerText := "C",
    value := none, ariaLabel := none, title := none, placeholder := none }

theorem convertStage_cyclic :
    convertStage 896 896 [cyclicA, cyclicB, cyclicC] =
      [⟨"button", "A", 10, 19, 20, 20⟩, ⟨"button", "B", 20, 0, 20, 20⟩,
        ⟨"button", "C", 0, 20, 20, 20⟩] := by
  have pA : passesFilter 896 896 cyclicA = true := by
    norm_num [passesFilter, sizeViewportReject, sizeReject, styleReject,
      RawRect.bottom, RawRect.right, cyclicA]
    decide
  have pB : passesFilter 896 896 cyclicB = true := by
    norm_num [passesFilter, sizeViewportReject, sizeReject, styleReject,
      RawRect.bottom, RawRect.right, cyclicB]
    decide
  have pC : passesFilter 896 896 cyclicC = true := by
    norm_num [passesFilter, sizeViewportReject, sizeReject, styleReject,
      RawRect.bottom, RawRect.right, cyclicC]
    decide
  simp only [convertStage, List.filter_cons, pA, pB, pC, if_pos,
    List.filter_nil, List.map_cons, List.map_nil, convertEl]
  norm_num [elementTypeOf, extractText, rawTextOf, jsTrim, jsRound,
    cyclicA, cyclicB, cyclicC]
  decide

/-- C2 (counterexample): on the cyclic triple, the detection output is NOT
pairwise ordered by the spec's relation — the claim fails as stated. -/
theorem detect_sorted_counterexample :
    ¬ List.Pairwise specOrd
      (detectClickableElements 896 896 [cyclicA, cyclicB, cyclicC]) := by
  rw [detectClickableElements, sortStage, convertStage_cyclic]
  decide

/-- A second visible button in the same 20px row as `sampleButton`. -/
def rowButton : RawEl :=
  { rect := ⟨10, 50, 30, 20⟩, style := ⟨"block", "visible", "1"⟩,
    tagName := "button", inputType := "", innerText := "No",
    value := none, ariaLabel := none, title := none, placeholder := none }

theorem convertStage_rowPair :
    convertStage 896 896 [sampleButton, rowButton] =
      [⟨"button", "OK", 100, 50, 30, 20⟩, ⟨"button", "No", 10, 50, 30, 20⟩] := by
  have pR : passesFilter 896 896 rowButton = true := by
    norm_num [passesFilter, sizeViewportReject, sizeReject, styleReject,
      RawRect.bottom, RawRect.right, rowButton]
    decide
  simp only [convertStage, List.filter_cons, passes_sampleButton, pR, if_pos,
    List.filter_nil, List.map_cons, List.map_nil, convertEl]
  norm_num [elementTypeOf, extractText, rawTextOf, jsTrim, jsRound,
    sampleButton, rowButton]
  decide

theorem detect_sorted_of_consistent_witness :
    (∀ a b c, a ∈ convertStage 896 896 [sampleButton, rowButton] →
        b ∈ convertStage 896 896 [sampleButton, rowButton] →
        c ∈ convertStage 896 896 [sampleButton, rowButton] →
        cmpVal a b ≤ 0 → cmpVal b c ≤ 0 → cmpVal a c ≤ 0) ∧
      List.Pairwise specOrd (detectClickableElements 896 896 [sampleButton, rowButton]) := by
  have htr : ∀ a b c, a ∈ convertStage 896 896 [sampleButton, rowButton] →
      b ∈ convertStage 896 896 [sampleButton, rowButton] →
      c ∈ convertStage 896 896 [sampleButton, rowButton] →
      cmpVal a b ≤ 0 → cmpVal b c ≤ 0 → cmpVal a c ≤ 0 := by
    rw [convertStage_rowPair]
    intro a b c ha hb hc
    fin_cases ha <;> fin_cases hb <;> fin_cases hc <;> decide
  exact ⟨htr, (detect_sorted_of_consistent 896 896 [sampleButton, rowButton] htr).1⟩

/-! Claim C4: display-text extraction and truncation. -/

/-- C4 (amended): the display text follows the stated precedence and is cut
to 50 characters; the ellipsis marker is appended exactly when the trimmed
text has at least 50 characters — so in the boundary case of exactly 50
characters the marker appears although nothing was dropped. -/
theorem extractText_spec (e : RawEl) :
    ((jsTrim (rawTextOf e).data).length < 50 →
        extractText e = String.mk (jsTrim (rawTextOf e).data)) ∧
      (50 ≤ (jsTrim (rawTextOf e).data).length →
        extractText e = String.mk ((jsTrim (rawTextOf e).data).take 50 ++ "...".data)) ∧
      (e.innerText ≠ "" → rawTextOf e = e.innerText) ∧
      (e.innerText = "" → e.value = none → e.ariaLabel = none → e.title = none →
        e.placeholder = none → rawTextOf e = "") := by
  refine ⟨?_, ?_, ?_, ?_⟩
  · intro h
    rw [extractText, if_neg, List.take_of_length_le (le_of_lt h)]
    rw [List.length_take]
    omega
  · intro h
    rw [extractText, if_pos]
    rw [List.length_take]
    omega
  · intro h
    rw [rawTextOf, if_neg h]
  · intro h1 h2 h3 h4 h5
    rw [rawTextOf, if_pos h1, h2, h3, h4, h5]
    rfl

/-- An element whose rendered text is exactly 50 characters long. -/
def fiftyCharEl : RawEl :=
  { rect := ⟨0, 0, 50, 20⟩, style := ⟨"block", "visible", "1"⟩,
    tagName := "button", inputType := "",
    innerText := "aaaaaaaaaaaaaaaaaaaaaaaaaaaaaaaaaaaaaaaaaaaaaaaaaa",
    value := none, ariaLabel := none, title := none, placeholder := none }

/-- C4 (counterexample): the trimmed text has exactly 50 characters, so the
50-character cut drops nothing, yet the ellipsis marker is appended — the
marker does not appear "exactly when the text was truncated". -/
theorem extractText_ellipsis_counterexample :
    (jsTrim (rawTextOf fiftyCharEl).data).length = 50 ∧
      (jsTrim (rawTextOf fiftyCharEl).data).take 50 =
        jsTrim (rawTextOf fiftyCharEl).data ∧
      extractText fiftyCharEl =
        String.mk (jsTrim (rawTextOf fiftyCharEl).data ++ "...".data) := by
  refine ⟨by decide, by decide, ?_⟩
  decide

theorem extractText_spec_witness :
    ((jsTrim (rawTextOf sampleButton).data).length < 50 ∧
        extractText sampleButton = String.mk (jsTrim (rawTextOf sampleButton).data)) ∧
      (50 ≤ (jsTrim (rawTextOf fiftyCharEl).data).length ∧
        extractText fiftyCharEl =
          String.mk ((jsTrim (rawTextOf fiftyCharEl).data).take 50 ++ "...".data)) ∧
      (sampleButton.innerText ≠ "" ∧ rawTextOf sampleButton = sampleButton.innerText) :=
  ⟨⟨by decide, (extractText_spec sampleButton).1 (by decide)⟩,
    ⟨by decide, (extractText_spec fiftyCharEl).2.1 (by decide)⟩,
    ⟨by decide, (extractText_spec sampleButton).2.2.1 (by decide)⟩⟩

/-! Claim C7: getContents truncation. -/

/-- The page surface `getContents` reads: the visible text
(`document.body.innerText`) and the selector lookup (`page.$` plus
`textContent`, which is nullable). -/
structure PageModel where
  innerText : String
  query : String → Option (Option String)

/-- The full-page branch of `getContents`: truncate past 10000 characters. -/
def pageTextOf (page : PageModel) : String :=
  if page.innerText.length > 10000 then
    String.mk (page.innerText.data.take 10000) ++ "\n\n[Content truncated...]"
  else page.innerText

/-- Model of `getContents`: a present, non-empty selector (JS truthiness) returns the
matched element's text or a not-found message; otherwise the page text. -/
def getContents (page : PageModel) (selector : Option String) : String :=
  match selector with
  | some sel =>
      if sel = "" then pageTextOf page
      else
        match page.query sel with
        | none => "No element found matching selector: " ++ sel
        | some t => t.getD ""
  | none => pageTextOf page

/-- C7: without a selector, page text longer than 10000 characters comes
back as exactly the first 10000 characters plus the truncation marker
(total 10024 characters); shorter text is returned unchanged. -/
theorem getContents_truncation (page : PageModel) :
    (10000 < page.innerText.length →
        getContents page none =
            String.mk (page.innerText.data.take 10000) ++ "\n\n[Content truncated...]" ∧
          (getContents page none).length = 10024) ∧
      (page.innerText.length ≤ 10000 → getContents page none = page.innerText) := by
  constructor
  · intro h
    have he : getContents page none =
        String.mk (page.innerText.data.take 10000) ++ "\n\n[Content truncated...]" := by
      rw [getContents, pageTextOf, if_pos (by omega)]
    refine ⟨he, ?_⟩
    rw [he, String.length_append]
    have h10 : (String.mk (page.innerText.data.take 10000)).length = 10000 := by
      simp only [String.length, List.length_take]
      have : page.innerText.data.length = page.innerText.length := rfl
      omega
    rw [h10]
    rfl
  · intro h
    rw [getContents, pageTextOf, if_neg (by omega)]

/-- A page whose visible text is 20000 characters of `a`. -/
def bigPage : PageModel :=
  { innerText := String.mk (List.replicate 20000 'a'), query := fun _ => none }

theorem getContents_truncation_witness :
    10000 < bigPage.innerText.length ∧
      getContents bigPage none =
          String.mk (bigPage.innerText.data.take 10000) ++ "\n\n[Content truncated...]" ∧
        (getContents bigPage none).length = 10024 :=
  have hlen : 10000 < bigPage.innerText.length := by
    show 10000 < (List.replicate 20000 'a').length
    rw [List.length_replicate]
    omega
  ⟨hlen, (getContents_truncation bigPage).1 hlen⟩

/-! Claim C9: labeled-screenshot overlay (circle placement and colors). -/

/-- Model of `String.prototype.startsWith`. -/
def strStartsWith (s p : String) : Bool := p.data.isPrefixOf s.data

/-- Model of `getElementColor`: blue for links, green for inputs/textareas/selects,
orange for buttons, purple for everything else. -/
def getElementColor (type : String) : String :=
  if type = "link" then "#3B82F6"
  else if strStartsWith type "input[" || type = "textarea" || type = "select" then
    "#22C55E"
  else if type = "button" then "#F97316"
  else "#A855F7"

/-- The label-circle center: `Math.max(12, el.x)` / `Math.max(12, el.y)`. -/
def labelPos (el : LabeledElement) : Int × Int := (max 12 el.x, max 12 el.y)

/-- The `<rect .../>` SVG fragment drawn around an element. -/
def svgRectFor (el : LabeledElement) : String :=
  "<rect x=\"" ++ toString el.x ++ "\" y=\"" ++ toString el.y ++
    "\" width=\"" ++ toString el.width ++ "\" height=\"" ++ toString el.height ++
    "\" fill=\"none\" stroke=\"" ++ getElementColor el.type ++
    "\" stroke-width=\"2\" rx=\"3\"/>"

/-- The `<circle .../>` SVG fragment for the numbered label. -/
def svgCircleFor (el : LabeledElement) : String :=
  "<circle cx=\"" ++ toString (labelPos el).1 ++ "\" cy=\"" ++
    toString (labelPos el).2 ++ "\" r=\"12\" fill=\"" ++
    getElementColor el.type ++ "\"/>"

/-- The `<text .../>` SVG fragment with the label number. -/
def svgTextFor (el : LabeledElement) : String :=
  "<text x=\"" ++ toString (labelPos el).1 ++ "\" y=\"" ++
    toString ((labelPos el).2 + 4) ++
    "\" text-anchor=\"middle\" font-family=\"Arial, sans-serif\" font-size=\"12\" font-weight=\"bold\" fill=\"white\">" ++
    toString el.label ++ "</text>"

/-- The three SVG fragments `takeLabeledScreenshot` emits per element. -/
def svgPartsFor (el : LabeledElement) : List String :=
  [svgRectFor el, svgCircleFor el, svgTextFor el]

/-- C9 (amended): the label circle is drawn at the element's top-left
corner clamped only on the low side (center `max 12 x`, `max 12 y`, so at
least 12 on both axes but with no upper clamp), filled with the class
color: link → blue `#3B82F6`, input/textarea/select → green `#22C55E`,
button → orange `#F97316`, everything else → purple `#A855F7`. -/
theorem labelCircle_clamp_color (el : LabeledElement) :
    labelPos el = (max 12 el.x, max 12 el.y) ∧
      12 ≤ (labelPos el).1 ∧ 12 ≤ (labelPos el).2 ∧
      svgCircleFor el = "<circle cx=\"" ++ toString (labelPos el).1 ++
        "\" cy=\"" ++ toString (labelPos el).2 ++ "\" r=\"12\" fill=\"" ++
        getElementColor el.type ++ "\"/>" ∧
      (el.type = "link" → getElementColor el.type = "#3B82F6") ∧
      (el.type ≠ "link" →
        (strStartsWith el.type "input[" = true ∨ el.type = "textarea" ∨
          el.type = "select") →
        getElementColor el.type = "#22C55E") ∧
      (el.type = "button" → getElementColor el.type = "#F97316") ∧
      (el.type ≠ "link" → strStartsWith el.type "input[" = false →
        el.type ≠ "textarea" → el.type ≠ "select" → el.type ≠ "button" →
        getElementColor el.type = "#A855F7") := by
  refine ⟨rfl, le_max_left .., le_max_left .., rfl, ?_, ?_, ?_, ?_⟩
  · intro h; rw [getElementColor, if_pos h]
  · intro h1 h2
    rw [getElementColor, if_neg h1, if_pos]
    rcases h2 with h | h | h <;> simp [h]
  · intro h
    rw [h]
    rfl
  · intro h1 h2 h3 h4 h5
    rw [getElementColor, if_neg h1, if_neg, if_neg h5]
    simp [h2, h3, h4]

/-- A visible link whose box touches the right viewport edge
(x = 886, width = 10, so `right = 896 = innerWidth` passes the filter). -/
def edgeLink : RawEl :=
  { rect := ⟨886, 5, 10, 10⟩, style := ⟨"block", "visible", "1"⟩,
    tagName := "a", inputType := "", innerText := "E",
    value := none, ariaLabel := none, title := none, placeholder := none }

theorem convertStage_edgeLink :
    convertStage 896 896 [edgeLink] = [⟨"link", "E", 886, 5, 10, 10⟩] := by
  have pE : passesFilter 896 896 edgeLink = true := by
    norm_num [passesFilter, sizeViewportReject, sizeReject, styleReject,
      RawRect.bottom, RawRect.right, edgeLink]
    decide
  simp only [convertStage, List.filter_cons, pE, if_pos,
    List.filter_nil, List.map_cons, List.map_nil, convertEl]
  norm_num [elementTypeOf, extractText, rawTextOf, jsTrim, jsRound, edgeLink]
  decide

/-- C9 (counterexample): the element at x = 886 is detected, and its label
circle is drawn with center x-coordinate 886 — outside the claimed upper
bound of 884, because the code only clamps with `Math.max(12, ·)` and
never clamps against the far edge. -/
theorem labelCircle_clamp_counterexample :
    (detectClickableElements 896 896 [edgeLink]).map labelPos = [(886, 12)] ∧
      ¬ ((886 : Int) ≤ 884) := by
  constructor
  · rw [detectClickableElements, sortStage, convertStage_edgeLink]
    rfl
  · decide

theorem labelCircle_clamp_color_witness :
    (sampleButtonOut.type = "button" ∧
        getElementColor sampleButtonOut.type = "#F97316") ∧
      12 ≤ (labelPos sampleButtonOut).1 ∧
      (labelPos sampleButtonOut = (max 12 sampleButtonOut.x, max 12 sampleButtonOut.y)) :=
  ⟨⟨rfl, (labelCircle_clamp_color sampleButtonOut).2.2.2.2.2.2.1 rfl⟩,
    (labelCircle_clamp_color sampleButtonOut).2.1,
    (labelCircle_clamp_color sampleButtonOut).1⟩

/-! Claims C8 and C10: clickByLabel. -/

/-- The external circumstances of one `clickByLabel` call: the page content
now (used for the fresh pass when the label is unknown), the content after
the click settles (possibly of a new tab), the viewport, whether a clicked
link opened a new tab and at which URL, and whether all three post-click
screenshot retries fail. -/
structure ClickEnv where
  pageNow : List RawEl
  pageAfter : List RawEl
  vw : ℚ
  vh : ℚ
  newTabOpened : Bool
  newTabUrl : String
  screenshotFails : Bool

/-- What one `clickByLabel` call produces: the result message, the elements
of the screenshot it returns (which overwrite `lastDetectedElements`), the
point the mouse click was issued at (if any), and whether a new tab was
handed off. -/
structure ClickOutcome where
  message : String
  elements : List LabeledElement
  clickedAt : Option (ℚ × ℚ)
  handoff : Bool
  deriving Repr

/-- Message piece `Available labels: ${labels.join(", ")}`. -/
def availableLabelsMsg (els : List LabeledElement) : String :=
  String.intercalate ", " (els.map (fun e => toString e.label))

def notFoundMsg (label : Int) (els : List LabeledElement) : String :=
  "Element with label " ++ toString label ++ " not found. Available labels: " ++
    availableLabelsMsg els

/-- Source line `centerX = element.x + element.width / 2` (and likewise for y). -/
def centerOf (el : LabeledElement) : ℚ × ℚ :=
  ((el.x : ℚ) + (el.width : ℚ) / 2, (el.y : ℚ) + (el.height : ℚ) / 2)

def clickedAtMsg (label : Int) (el : LabeledElement) (c : ℚ × ℚ) : String :=
  "Clicked element [" ++ toString label ++ "] \"" ++ el.text ++ "\" (" ++
    el.type ++ ") at (" ++ toString (jsRound c.1) ++ ", " ++
    toString (jsRound c.2) ++ ")"

def newTabMsg (label : Int) (el : LabeledElement) (url : String) : String :=
  "Clicked element [" ++ toString label ++ "] \"" ++ el.text ++ "\" (" ++
    el.type ++ ") - opened in new tab at " ++ url

/-- Model of `clickByLabel`: resolve the label against the stored detection; when
absent, take a fresh labeled screenshot and report the available labels;
otherwise click at the element's center, with the link/new-tab special
case, and `throw` only when the post-click screenshot fails all retries. -/
def clickByLabel (env : ClickEnv) (lastDetected : List LabeledElement)
    (label : Int) : Except String ClickOutcome :=
  match lastDetected.find? (fun el => decide ((el.label : Int) = label)) with
  | none =>
      Except.ok
        { message := notFoundMsg label (detectClickableElements env.vw env.vh env.pageNow)
          elements := detectClickableElements env.vw env.vh env.pageNow
          clickedAt := none
          handoff := false }
  | some el =>
      if el.type = "link" ∧ env.newTabOpened = true then
        Except.ok
          { message := newTabMsg label el env.newTabUrl
            elements := detectClickableElements env.vw env.vh env.pageAfter
            clickedAt := some (centerOf el)
            handoff := true }
      else if env.screenshotFails = true then
        Except.error "Failed to take screenshot after clicking"
      else
        Except.ok
          { message := clickedAtMsg label el (centerOf el)
            elements := detectClickableElements env.vw env.vh env.pageAfter
            clickedAt := some (centerOf el)
            handoff := false }

/-- C8: a `clickByLabel` with a label absent from the stored detection does
not throw: it returns the not-found message enumerating the labels of a
fresh detection pass, and that fresh pass replaces the stored one. -/
theorem clickByLabel_unknown_label (env : ClickEnv)
    (st : List LabeledElement) (label : Int)
    (h : ∀ e ∈ st, (e.label : Int) ≠ label) :
    clickByLabel env st label = Except.ok
      { message := notFoundMsg label (detectClickableElements env.vw env.vh env.pageNow)
        elements := detectClickableElements env.vw env.vh env.pageNow
        clickedAt := none
        handoff := false } := by
  have hf : st.find? (fun el => decide ((el.label : Int) = label)) = none := by
    rw [List.find?_eq_none]
    intro x hx
    simpa using h x hx
  rw [clickByLabel, hf]

/-- Stored elements with labels 1 through 5. -/
def fiveStored : List LabeledElement :=
  [⟨1, "button", "a", 0, 0, 20, 20⟩, ⟨2, "button", "b", 30, 0, 20, 20⟩,
    ⟨3, "button", "c", 60, 0, 20, 20⟩, ⟨4, "button", "d", 90, 0, 20, 20⟩,
    ⟨5, "button", "e", 120, 0, 20, 20⟩]

/-- An environment whose current page holds the single sample button. -/
def plainEnv : ClickEnv :=
  { pageNow := [sampleButton], pageAfter := [sampleButton], vw := 896, vh := 896,
    newTabOpened := false, newTabUrl := "", screenshotFails := false }

theorem clickByLabel_unknown_label_witness :
    (∀ e ∈ fiveStored, (e.label : Int) ≠ 99) ∧
      clickByLabel plainEnv fiveStored 99 = Except.ok
        { message := notFoundMsg 99 (detectClickableElements plainEnv.vw plainEnv.vh plainEnv.pageNow)
          elements := detectClickableElements plainEnv.vw plainEnv.vh plainEnv.pageNow
          clickedAt := none
          handoff := false } :=
  ⟨by decide, clickByLabel_unknown_label plainEnv fiveStored 99 (by decide)⟩

/-- C10 (amended): when the label resolves, the click is issued at the
geometric center of the element's box (not at the top-left corner where
the label circle sits), and — except when a clicked link opens a new tab —
the result message reports the rounded center coordinates. -/
theorem clickByLabel_center (env : ClickEnv) (st : List LabeledElement)
    (label : Int) (el : LabeledElement)
    (hf : st.find? (fun e => decide ((e.label : Int) = label)) = some el) :
    (∀ out, clickByLabel env st label = Except.ok out →
        out.clickedAt = some (centerOf el)) ∧
      centerOf el = ((el.x : ℚ) + (el.width : ℚ) / 2, (el.y : ℚ) + (el.height : ℚ) / 2) ∧
      (¬(el.type = "link" ∧ env.newTabOpened = true) → env.screenshotFails = false →
        clickByLabel env st label = Except.ok
          { message := clickedAtMsg label el (centerOf el)
            elements := detectClickableElements env.vw env.vh env.pageAfter
            clickedAt := some (centerOf el)
            handoff := false }) ∧
      (0 < el.width → (centerOf el).1 ≠ (el.x : ℚ)) := by
  refine ⟨?_, rfl, ?_, ?_⟩
  · intro out hout
    rw [clickByLabel, hf] at hout
    dsimp only at hout
    by_cases h1 : el.type = "link" ∧ env.newTabOpened = true
    · rw [if_pos h1] at hout
      cases hout
      rfl
    · rw [if_neg h1] at hout
      by_cases h2 : env.screenshotFails = true
      · rw [if_pos h2] at hout
        cases hout
      · rw [if_neg h2] at hout
        cases hout
        rfl
  · intro h1 h2
    rw [clickByLabel, hf]
    dsimp only
    rw [if_neg h1, if_neg (by simp [h2])]
  · intro hw
    rw [centerOf]
    intro hc
    simp only at hc
    have hne : ((el.width : ℚ)) ≠ 0 := Int.cast_ne_zero.mpr (by omega)
    have h0 : (el.width : ℚ) = 0 := by linarith
    exact hne h0

/-- The stored link element clicked in the new-tab counterexample. -/
def storedLink : LabeledElement := ⟨1, "link", "Go", 100, 50, 30, 20⟩

/-- An environment in which clicking the link opens a new tab. -/
def newTabEnv : ClickEnv :=
  { pageNow := [], pageAfter := [], vw := 896, vh := 896,
    newTabOpened := true, newTabUrl := "https://t", screenshotFails := false }

/-- C10 (counterexample): when the clicked link opens a new tab, the result
message is the new-tab message (reporting the URL), not the message with
the rounded center coordinates — so "the returned message reports those
rounded center coordinates" fails as a universal claim. -/
theorem clickByLabel_center_counterexample :
    clickByLabel newTabEnv [storedLink] 1 = Except.ok
        { message := newTabMsg 1 storedLink "https://t"
          elements := []
          clickedAt := some (centerOf storedLink)
          handoff := true } ∧
      newTabMsg 1 storedLink "https://t" ≠
        clickedAtMsg 1 storedLink (centerOf storedLink) := by
  constructor
  · rfl
  · have hc : centerOf storedLink = ((115 : ℚ), (60 : ℚ)) := by
      norm_num [centerOf, storedLink]
    have hj1 : jsRound (115 : ℚ) = 115 := by norm_num [jsRound]
    have hj2 : jsRound (60 : ℚ) = 60 := by norm_num [jsRound]
    rw [hc]
    simp only [clickedAtMsg, hj1, hj2]
    decide

theorem clickByLabel_center_witness :
    ([sampleButtonOut].find? (fun e => decide ((e.label : Int) = 1)) =
        some sampleButtonOut) ∧
      (¬(sampleButtonOut.type = "link" ∧ plainEnv.newTabOpened = true) ∧
        plainEnv.screenshotFails = false) ∧
      clickByLabel plainEnv [sampleButtonOut] 1 = Except.ok
        { message := clickedAtMsg 1 sampleButtonOut (centerOf sampleButtonOut)
          elements := detectClickableElements plainEnv.vw plainEnv.vh plainEnv.pageAfter
          clickedAt := some (centerOf sampleButtonOut)
          handoff := false } :=
  ⟨rfl, ⟨by decide, rfl⟩,
    (clickByLabel_center plainEnv [sampleButtonOut] 1 sampleButtonOut rfl).2.2.1
      (by decide) rfl⟩

/-! Claims C5 and C6: the action parser (`parseToolCall`).

The two patterns
`\{[^{}]*"tool"\s*:\s*"[^"]+"\s*,\s*"args"\s*:\s*\{[^{}]*\}[^{}]*\}` and
`\{[^{}]*"tool"\s*:\s*"[^"]+"[^{}]*\}` contain only literal characters and
greedy stars/pluses over character classes, so JavaScript's leftmost-match
backtracking semantics is modelled exactly: try every start position from
the left, and at each star consume the maximal run and give characters back
from its end until the remaining tokens match. -/

/-- Tokens of the two tool-call patterns: a literal character, a greedy
star over a character class, or a greedy plus over a character class. -/
inductive RTok where
  | lit : Char → RTok
  | star : (Char → Bool) → RTok
  | more : (Char → Bool) → RTok

/-- Class `[^{}]`. -/
def nbChar (c : Char) : Bool := !(c = '\x7b' || c = '\x7d')

/-- Class `[^"]`. -/
def nqChar (c : Char) : Bool := !(c = '"')

/-- The maximal run of class characters and the remainder (`List.span`). -/
def splitRun (p : Char → Bool) : List Char → List Char × List Char
  | [] => ([], [])
  | c :: cs =>
      if p c then
        let r := splitRun p cs
        (c :: r.1, r.2)
      else ([], c :: cs)

/-- Greedy backtracking for `class*` followed by the continuation `k`:
`rcons` holds the currently consumed run in reverse; characters are given
back from its end until `k` matches, longest first. -/
def starBack (k : List Char → Option (List Char)) :
    List Char → List Char → Option (List Char)
  | rcons, rest =>
      match k rest with
      | some m => some (rcons.reverse ++ m)
      | none =>
          match rcons with
          | [] => none
          | c :: rcons2 => starBack k rcons2 (c :: rest)

/-- Greedy backtracking for `class+`: as `starBack`, but at least one
character of the run must stay consumed. -/
def starBack1 (k : List Char → Option (List Char)) :
    List Char → List Char → Option (List Char)
  | rcons, rest =>
      match k rest with
      | some m => some (rcons.reverse ++ m)
      | none =>
          match rcons with
          | [] => none
          | [_] => none
          | c :: rcons2 => starBack1 k rcons2 (c :: rest)

/-- Match a token list at the start of `s`, returning the matched prefix. -/
def matchToks : List RTok → List Char → Option (List Char)
  | [], _ => some []
  | RTok.lit c :: ts, s =>
      match s with
      | [] => none
      | x :: xs => if x = c then (matchToks ts xs).map (x :: ·) else none
  | RTok.star p :: ts, s =>
      let pr := splitRun p s
      starBack (fun r => matchToks ts r) pr.1.reverse pr.2
  | RTok.more p :: ts, s =>
      let pr := splitRun p s
      match pr.1 with
      | [] => none
      | _ :: _ => starBack1 (fun r => matchToks ts r) pr.1.reverse pr.2

/-- Leftmost match: `String.prototype.match` without the `g` flag returns
the match at the earliest start position. -/
def matchFirst (toks : List RTok) : List Char → Option (List Char)
  | [] =>
      match matchToks toks [] with
      | some m => some m
      | none => none
  | x :: xs =>
      match matchToks toks (x :: xs) with
      | some m => some m
      | none => matchFirst toks xs

def litToks (s : String) : List RTok := s.data.map RTok.lit

/-- Pattern `/\{[^{}]*"tool"\s*:\s*"[^"]+"\s*,\s*"args"\s*:\s*\{[^{}]*\}[^{}]*\}/`. -/
def strictToks : List RTok :=
  [RTok.lit '\x7b', RTok.star nbChar] ++ litToks "\"tool\"" ++
    [RTok.star wsChar, RTok.lit ':', RTok.star wsChar, RTok.lit '"',
      RTok.more nqChar, RTok.lit '"', RTok.star wsChar, RTok.lit ',',
      RTok.star wsChar] ++ litToks "\"args\"" ++
    [RTok.star wsChar, RTok.lit ':', RTok.star wsChar, RTok.lit '\x7b',
      RTok.star nbChar, RTok.lit '\x7d', RTok.star nbChar, RTok.lit '\x7d']

/-- Pattern `/\{[^{}]*"tool"\s*:\s*"[^"]+"[^{}]*\}/` (the fallback for empty or
missing `args`). -/
def looseToks : List RTok :=
  [RTok.lit '\x7b', RTok.star nbChar] ++ litToks "\"tool\"" ++
    [RTok.star wsChar, RTok.lit ':', RTok.star wsChar, RTok.lit '"',
      RTok.more nqChar, RTok.lit '"', RTok.star nbChar, RTok.lit '\x7d']

/-- JSON values as produced by `JSON.parse`. Numbers are modelled as exact
rationals (JavaScript rounds them to binary doubles; none of the checked
claims involves numeric precision). -/
inductive Json where
  | jnull : Json
  | jbool : Bool → Json
  | jnum : ℚ → Json
  | jstr : String → Json
  | jarr : List Json → Json
  | jobj : List (String × Json) → Json

/-- JSON's insignificant whitespace (space, tab, newline, carriage return). -/
def jsonWs (c : Char) : Bool := c = ' ' || c = '\t' || c = '\n' || c = '\r'

def skipWs (l : List Char) : List Char := l.dropWhile jsonWs

def hexVal (c : Char) : Option Nat :=
  if '0' ≤ c ∧ c ≤ '9' then some (c.toNat - 48)
  else if 'a' ≤ c ∧ c ≤ 'f' then some (c.toNat - 87)
  else if 'A' ≤ c ∧ c ≤ 'F' then some (c.toNat - 55)
  else none

/-- Decode the body of a JSON string after the opening quote, returning the
content and the remainder after the closing quote. Surrogate pairs in
`\uXXXX` escapes are combined; a lone surrogate (representable in a
JavaScript string but not as a Unicode scalar) becomes U+FFFD. -/
def parseStrRest (fuel : Nat) (l : List Char) : Option (List Char × List Char) :=
  match fuel with
  | 0 => none
  | fuel + 1 =>
      match l with
      | [] => none
      | c :: r =>
          if c = '"' then some ([], r)
          else if c = '\\' then
            match r with
            | [] => none
            | e :: r2 =>
                if e = '"' ∨ e = '\\' ∨ e = '/' then
                  (parseStrRest fuel r2).map (fun pr => (e :: pr.1, pr.2))
                else if e = 'b' then
                  (parseStrRest fuel r2).map (fun pr => ('\x08' :: pr.1, pr.2))
                else if e = 'f' then
                  (parseStrRest fuel r2).map (fun pr => ('\x0c' :: pr.1, pr.2))
                else if e = 'n' then
                  (parseStrRest fuel r2).map (fun pr => ('\n' :: pr.1, pr.2))
                else if e = 'r' then
                  (parseStrRest fuel r2).map (fun pr => ('\r' :: pr.1, pr.2))
                else if e = 't' then
                  (parseStrRest fuel r2).map (fun pr => ('\t' :: pr.1, pr.2))
                else if e = 'u' then
                  match r2 with
                  | h1 :: h2 :: h3 :: h4 :: r3 =>
                      match hexVal h1, hexVal h2, hexVal h3, hexVal h4 with
                      | some a, some b, some c2, some d =>
                          let code := ((a * 16 + b) * 16 + c2) * 16 + d
                          if 0xd800 ≤ code ∧ code < 0xdc00 then
                            match r3 with
                            | '\\' :: 'u' :: g1 :: g2 :: g3 :: g4 :: r4 =>
                                match hexVal g1, hexVal g2, hexVal g3, hexVal g4 with
                                | some a2, some b2, some c3, some d2 =>
                                    let lo := ((a2 * 16 + b2) * 16 + c3) * 16 + d2
                                    if 0xdc00 ≤ lo ∧ lo < 0xe000 then
                                      let cp := 0x10000 + (code - 0xd800) * 0x400 + (lo - 0xdc00)
                                      (parseStrRest fuel r4).map
                                        (fun pr => (Char.ofNat cp :: pr.1, pr.2))
                                    else
                                      (parseStrRest fuel r3).map
                                        (fun pr => ('�' :: pr.1, pr.2))
                                | _, _, _, _ =>
                                    (parseStrRest fuel r3).map
                                      (fun pr => ('�' :: pr.1, pr.2))
                            | _ =>
                                (parseStrRest fuel r3).map
                                  (fun pr => ('�' :: pr.1, pr.2))
                          else if 0xdc00 ≤ code ∧ code < 0xe000 then
                            (parseStrRest fuel r3).map
                              (fun pr => ('�' :: pr.1, pr.2))
                          else
                            (parseStrRest fuel r3).map
                              (fun pr => (Char.ofNat code :: pr.1, pr.2))
                      | _, _, _, _ => none
                  | _ => none
                else none
          else if c.toNat < 0x20 then none
          else (parseStrRest fuel r).map (fun pr => (c :: pr.1, pr.2))

def isDigitCh (c : Char) : Bool := '0' ≤ c && c ≤ '9'

def digitsToNat (l : List Char) : Nat :=
  l.foldl (fun a c => a * 10 + (c.toNat - 48)) 0

/-- Parse a JSON number (`-?(0|[1-9][0-9]*)(\.[0-9]+)?([eE][+-]?[0-9]+)?`)
into an exact rational. -/
def parseNum (l : List Char) : Option (ℚ × List Char) :=
  let (neg, l1) :=
    match l with
    | '-' :: r => (true, r)
    | _ => (false, l)
  let (ip, l2) := splitRun isDigitCh l1
  if ip = [] then none
  else if ip.length > 1 ∧ ip.headI = '0' then none
  else
    let (fp, l3) :=
      match l2 with
      | '.' :: r =>
          let pr := splitRun isDigitCh r
          (some pr.1, pr.2)
      | _ => (none, l2)
    match fp with
    | some [] => none
    | _ =>
        let frac := match fp with | some f => f | none => []
        let (ex, l4) :=
          match l3 with
          | 'e' :: '+' :: r => (some (false, splitRun isDigitCh r), (splitRun isDigitCh r).2)
          | 'E' :: '+' :: r => (some (false, splitRun isDigitCh r), (splitRun isDigitCh r).2)
          | 'e' :: '-' :: r => (some (true, splitRun isDigitCh r), (splitRun isDigitCh r).2)
          | 'E' :: '-' :: r => (some (true, splitRun isDigitCh r), (splitRun isDigitCh r).2)
          | 'e' :: r => (some (false, splitRun isDigitCh r), (splitRun isDigitCh r).2)
          | 'E' :: r => (some (false, splitRun isDigitCh r), (splitRun isDigitCh r).2)
          | _ => (none, l3)
        match ex with
        | some (_, pr) =>
            if pr.1 = [] then none
            else
              let mant : ℚ :=
                ((digitsToNat ip : ℚ) + (digitsToNat frac : ℚ) / ((10 : ℚ) ^ frac.length))
              let esgn : Bool := match ex with | some (s, _) => s | none => false
              let emag := digitsToNat pr.1
              let scaled := if esgn then mant / ((10 : ℚ) ^ emag) else mant * ((10 : ℚ) ^ emag)
              some (if neg then -scaled else scaled, l4)
        | none =>
            let mant : ℚ :=
              ((digitsToNat ip : ℚ) + (digitsToNat frac : ℚ) / ((10 : ℚ) ^ frac.length))
            some (if neg then -mant else mant, l4)

mutual

/-- Parse one JSON value, returning it with the unconsumed remainder. -/
def parseVal (fuel : Nat) (l : List Char) : Option (Json × List Char) :=
  match fuel with
  | 0 => none
  | f + 1 =>
      match skipWs l with
      | 'n' :: 'u' :: 'l' :: 'l' :: r => some (Json.jnull, r)
      | 't' :: 'r' :: 'u' :: 'e' :: r => some (Json.jbool true, r)
      | 'f' :: 'a' :: 'l' :: 's' :: 'e' :: r => some (Json.jbool false, r)
      | '"' :: r =>
          (parseStrRest (r.length + 1) r).map
            (fun pr => (Json.jstr (String.mk pr.1), pr.2))
      | '[' :: r =>
          (match skipWs r with
            | ']' :: r2 => some (Json.jarr [], r2)
            | _ =>
                (parseArrItems f (skipWs r)).map
                  (fun pr => (Json.jarr pr.1, pr.2)))
      | '\x7b' :: r =>
          (match skipWs r with
            | '\x7d' :: r2 => some (Json.jobj [], r2)
            | _ =>
                (parseObjItems f (skipWs r)).map
                  (fun pr => (Json.jobj pr.1, pr.2)))
      | l2 => (parseNum l2).map (fun pr => (Json.jnum pr.1, pr.2))

/-- Parse comma-separated array items up to and including the `]`. -/
def parseArrItems (fuel : Nat) (l : List Char) : Option (List Json × List Char) :=
  match fuel with
  | 0 => none
  | f + 1 =>
      match parseVal f l with
      | none => none
      | some (v, r) =>
          match skipWs r with
          | ',' :: r2 =>
              (parseArrItems f r2).map (fun pr => (v :: pr.1, pr.2))
          | ']' :: r2 => some ([v], r2)
          | _ => none

/-- Parse comma-separated `"key": value` members up to and including the
closing brace. -/
def parseObjItems (fuel : Nat) (l : List Char) : Option (List (String × Json) × List Char) :=
  match fuel with
  | 0 => none
  | f + 1 =>
      match skipWs l with
      | '"' :: r =>
          match parseStrRest (r.length + 1) r with
          | none => none
          | some (key, r2) =>
              match skipWs r2 with
              | ':' :: r3 =>
                  match parseVal f r3 with
                  | none => none
                  | some (v, r4) =>
                      match skipWs r4 with
                      | ',' :: r5 =>
                          (parseObjItems f r5).map
                            (fun pr => ((String.mk key, v) :: pr.1, pr.2))
                      | '\x7d' :: r5 => some ([(String.mk key, v)], r5)
                      | _ => none
              | _ => none
      | _ => none

end

/-- Model of `JSON.parse`: a full parse of the text into one value, with only
whitespace allowed to remain. -/
def jsonParse (s : String) : Option Json :=
  match parseVal (s.data.length + 1) s.data with
  | some (v, r) => if skipWs r = [] then some v else none
  | none => none

/-- Property lookup on a parsed value: `JSON.parse` assigns duplicate keys
in order, so the last occurrence wins; property access on a non-object
yields `undefined` (`none`). -/
def toolFieldOf (j : Json) (key : String) : Option Json :=
  match j with
  | Json.jobj fs => (fs.reverse.find? (fun kv => decide (kv.1 = key))).map (·.2)
  | _ => none

/-- JavaScript truthiness of a JSON value. -/
def jsTruthy : Json → Bool
  | Json.jnull => false
  | Json.jbool b => b
  | Json.jnum q => decide (q ≠ 0)
  | Json.jstr s => decide (s ≠ "")
  | Json.jarr _ => true
  | Json.jobj _ => true

/-- The parsed action: `{ tool: parsed.tool, args: parsed.args || {} }`. -/
structure JsAction where
  tool : String
  args : Json

/-- Validate and convert one extracted match:
`parsed.tool && typeof parsed.tool === "string"` guards the return, and a
falsy `args` is replaced by `{}`. -/
def jsonToAction (m : List Char) : Option JsAction :=
  match jsonParse (String.mk m) with
  | none => none
  | some j =>
      match toolFieldOf j "tool" with
      | some (Json.jstr t) =>
          if t = "" then none
          else
            let args :=
              match toolFieldOf j "args" with
              | some a => if jsTruthy a then a else Json.jobj []
              | none => Json.jobj []
            some ⟨t, args⟩
      | _ => none

/-- Model of `parseToolCall`: try the strict pattern first; if it does not match,
fall back to the loose pattern; convert whichever match was found. -/
def parseToolCall (content : String) : Option JsAction :=
  match matchFirst strictToks content.data with
  | some m => jsonToAction m
  | none =>
      match matchFirst looseToks content.data with
      | some m => jsonToAction m
      | none => none

/-! Lemmas about the matcher and the parser policy. -/

theorem matchToks_lit_ne (c0 : Char) (ts : List RTok) (x : Char)
    (xs : List Char) (hx : x ≠ c0) :
    matchToks (RTok.lit c0 :: ts) (x :: xs) = none := by
  rw [matchToks, if_neg hx]

theorem matchFirst_skip (toks : List RTok) (pre rest : List Char)
    (hfail : ∀ x ∈ pre, ∀ xs, matchToks toks (x :: xs) = none) :
    matchFirst toks (pre ++ rest) = matchFirst toks rest := by
  induction pre with
  | nil => rfl
  | cons x xs ih =>
      rw [List.cons_append, matchFirst,
        hfail x (List.mem_cons_self ..) (xs ++ rest)]
      exact ih fun c hc xs2 => hfail c (List.mem_cons_of_mem _ hc) xs2

theorem matchFirst_no_open (c0 : Char) (ts : List RTok) (s : List Char)
    (h : ∀ c ∈ s, c ≠ c0) : matchFirst (RTok.lit c0 :: ts) s = none := by
  have := matchFirst_skip (RTok.lit c0 :: ts) s []
    (fun x hx xs => matchToks_lit_ne c0 ts x xs (h x hx))
  rw [List.append_nil] at this
  rw [this]
  rfl

/-- C6: the parser policy — the strict pattern is attempted first, the
loose pattern only on its failure; `null` comes back whenever both
patterns fail (in particular on any text without an opening brace, i.e.
plain prose), whenever the extracted text is not valid JSON, and whenever
the parsed value lacks a string-typed `tool` field. -/
theorem parseToolCall_policy :
    (∀ content : String, (∀ c ∈ content.data, c ≠ '\x7b') →
        parseToolCall content = none) ∧
      (∀ content : String, matchFirst strictToks content.data = none →
        matchFirst looseToks content.data = none → parseToolCall content = none) ∧
      (∀ (content : String) (m : List Char),
        matchFirst strictToks content.data = some m →
        parseToolCall content = jsonToAction m) ∧
      (∀ (content : String) (m : List Char),
        matchFirst strictToks content.data = none →
        matchFirst looseToks content.data = some m →
        parseToolCall content = jsonToAction m) ∧
      (∀ m : List Char, jsonParse (String.mk m) = none → jsonToAction m = none) ∧
      (∀ (m : List Char) (j : Json), jsonParse (String.mk m) = some j →
        (∀ t : String, toolFieldOf j "tool" ≠ some (Json.jstr t)) →
        jsonToAction m = none) := by
  refine ⟨?_, ?_, ?_, ?_, ?_, ?_⟩
  · intro content h
    have hs : matchFirst strictToks content.data = none :=
      matchFirst_no_open '\x7b' _ content.data h
    have hl : matchFirst looseToks content.data = none :=
      matchFirst_no_open '\x7b' _ content.data h
    rw [parseToolCall, hs, hl]
  · intro content h1 h2
    rw [parseToolCall, h1, h2]
  · intro content m h1
    rw [parseToolCall, h1]
  · intro content m h1 h2
    rw [parseToolCall, h1, h2]
  · intro m h
    rw [jsonToAction, h]
  · intro m j hp ht
    rw [jsonToAction, hp]
    dsimp only
    cases hf : toolFieldOf j "tool" with
    | none => rfl
    | some v =>
        cases v with
        | jstr t => exact absurd hf (ht t)
        | jnull => rfl
        | jbool b => rfl
        | jnum q => rfl
        | jarr xs => rfl
        | jobj fs => rfl

theorem parseToolCall_policy_witness :
    ((∀ c ∈ ("hello there, no json" : String).data, c ≠ '\x7b') ∧
        parseToolCall "hello there, no json" = none) ∧
      (matchFirst strictToks ("screenshot please" : String).data = none ∧
        matchFirst looseToks ("screenshot please" : String).data = none ∧
        parseToolCall "screenshot please" = none) :=
  ⟨⟨by decide, parseToolCall_policy.1 "hello there, no json" (by decide)⟩,
    ⟨rfl, rfl, parseToolCall_policy.2.1 "screenshot please" rfl rfl⟩⟩

/-! Claim C5: round-trip of an embedded navigate action. -/

/-- The serialized navigate action of the round-trip claim. -/
def navJsonStr : String :=
  "\x7b\"tool\":\"navigate\",\"args\":\x7b\"url\":\"https://x\"\x7d\x7d"

/-- The action the round-trip is expected to produce. -/
def navAction : JsAction :=
  ⟨"navigate", Json.jobj [("url", Json.jstr "https://x")]⟩

theorem matchFirst_strict_nav (suf : List Char) :
    matchFirst strictToks (navJsonStr.data ++ suf) = some navJsonStr.data := rfl

/-- C5 (amended): embedding the serialized navigate action in prose whose
prefix contains no opening brace round-trips: the parser returns
tool `navigate` with `args.url = "https://x"`, whatever follows the
object. (With an arbitrary prefix the leftmost pattern match wins, so
brace-delimited decoy text earlier in the prose is extracted instead —
see the counterexample.) -/
theorem parseToolCall_roundtrip (pre suf : String)
    (h : ∀ c ∈ pre.data, c ≠ '\x7b') :
    parseToolCall (pre ++ navJsonStr ++ suf) = some navAction := by
  have hdata : (pre ++ navJsonStr ++ suf).data =
      pre.data ++ (navJsonStr.data ++ suf.data) := by
    show (pre.data ++ navJsonStr.data) ++ suf.data = _
    exact List.append_assoc ..
  have hm : matchFirst strictToks (pre ++ navJsonStr ++ suf).data =
      some navJsonStr.data := by
    rw [hdata,
      matchFirst_skip strictToks pre.data (navJsonStr.data ++ suf.data)
        (fun x hx xs => matchToks_lit_ne '\x7b' _ x xs (h x hx))]
    exact matchFirst_strict_nav suf.data
  rw [parseToolCall, hm]
  rfl

/-- Prose that itself contains a brace-delimited tool object before the
embedded navigate action. -/
def decoyPre : String := "I will \x7b\"tool\":\"noop\",\"args\":\x7b\x7d\x7d then "

/-- C5 (counterexample): with arbitrary surrounding prose the round-trip
fails — prose containing an earlier matching object wins the leftmost
match, and the parser returns that tool (`noop`), not `navigate`. -/
theorem parseToolCall_roundtrip_counterexample :
    parseToolCall (decoyPre ++ navJsonStr ++ "") = some ⟨"noop", Json.jobj []⟩ ∧
      parseToolCall (decoyPre ++ navJsonStr ++ "") ≠ some navAction := by
  refine ⟨rfl, ?_⟩
  intro hcl
  rw [show parseToolCall (decoyPre ++ navJsonStr ++ "") =
      some ⟨"noop", Json.jobj []⟩ from rfl] at hcl
  have : ("noop" : String) = "navigate" :=
    congrArg JsAction.tool (Option.some.inj hcl)
  exact absurd this (by decide)

theorem parseToolCall_roundtrip_witness :
    (∀ c ∈ ("Sure, I will browse: " : String).data, c ≠ '\x7b') ∧
      parseToolCall ("Sure, I will browse: " ++ navJsonStr ++ " right away.") =
        some navAction :=
  ⟨by decide,
    parseToolCall_roundtrip "Sure, I will browse: " " right away." (by decide)⟩

end BrowserAgent
